import Mathlib

/-!
# qutty: the session layout core of `GuiMainWindow`

A shallow embedding of the tab / split bookkeeping in `src/GuiMainWindow.cpp`:
the tab sequence held by `tabArea`, the session registry `terminalList`, and the
derived index (`tabIndexMap`, `widgetAtIndex`) rebuilt by `on_tabLayoutChanged`.

Conventions.

* Widgets are identified by their address.  `QWidgetPtr` is a `const QWidget*`:
  the constructor records the dynamic type of the pointee, which is what
  `qobject_cast` / `dynamic_cast` inspect.
* `tabIndexMap` is an association list with unique keys; `assign` is the
  map's `operator[]` followed by assignment, `find` is `find`.
* `widgetAtIndex` is a `std::vector` of pairs; reading it outside its bounds is
  reported as `Fault.vectorOutOfRange`.
* Calls into collaborators whose code lives outside `GuiMainWindow.cpp` (session title
  refresh, session close routine, message boxes, settings, focus) are recorded
  in an event trace, in call order.  The close routine may re-enter the window;
  its effect on the window state is the parameter `CloseRoutine`.
* Values produced by the environment (the answer to a confirmation prompt, the
  return code of `initTerminal`, freshly allocated addresses, Qt's focus
  bookkeeping) are explicit arguments.
* Each method is embedded as the direct calls of its body.  Signals that Qt
  delivers from inside `insertTab`, `removeTab` or `setCurrentWidget` are
  raised outside `GuiMainWindow.cpp` and are not replayed.
* Window geometry (the one-shot resize in `setupLayout`) is not part of the
  state and is left out.
-/

namespace Qutty

/-- Address of a `GuiTerminalWindow`. -/
abbrev TermId := Nat

/-- Address of a `GuiSplitter`. -/
abbrev SplitId := Nat

/-- The values of `GuiBase::SplitType` that `setupLayout` switches on; `TYPE_OTHER`
stands for any value that reaches the `default:` branch. -/
inductive SplitType
  | TYPE_LEAF
  | TYPE_HORIZONTAL
  | TYPE_VERTICAL
  | TYPE_OTHER
  deriving DecidableEq

/-- A `QWidget*`: null, a terminal session, a splitter, or any other widget. -/
inductive QWidgetPtr
  | null
  | term (t : TermId)
  | splitter (s : SplitId)
  | other (w : Nat)
  deriving DecidableEq

/-- The widget tree shown in one tab: a bare terminal session, or a splitter
dividing the area between two sub-trees. -/
inductive Pane
  | term (t : TermId)
  | split (id : SplitId) (o : SplitType) (l r : Pane)
  deriving DecidableEq

/-- Result of `qobject_cast<GuiTerminalWindow*>`. -/
def QWidgetPtr.asTerm : QWidgetPtr → Option TermId
  | .term t => some t
  | _ => none

/-- Result of `qobject_cast<GuiSplitter*>`. -/
def QWidgetPtr.asSplitter : QWidgetPtr → Option SplitId
  | .splitter s => some s
  | _ => none

/-- Address of the widget at the root of a pane. -/
def Pane.ptr : Pane → QWidgetPtr
  | .term t => .term t
  | .split s _ _ _ => .splitter s

/-- Modelled from the spec: `GuiSplitter::populateAllTerminals` (spec 4.1,
`collectTerminals()`), whose source is not under src/: the ordered sequence of
every terminal session reachable under the node, pre-order, left child before
right child. -/
def Pane.populateAllTerminals : Pane → List TermId
  | .term t => [t]
  | .split _ _ l r => l.populateAllTerminals ++ r.populateAllTerminals

/-- Every widget address occurring in a pane: splitters and sessions. -/
def Pane.widgets : Pane → List QWidgetPtr
  | .term t => [.term t]
  | .split s _ l r => .splitter s :: (l.widgets ++ r.widgets)

/-- Modelled from the spec: `GuiTerminalWindow::createSplitLayout` (spec 4.1,
`createSplit(existingLeaf, newSession, orientation)`), whose source is not in
this file: the leaf `existingLeaf` is replaced, where it stands, by a new split
node whose children are `existingLeaf` and then `newSession`. -/
def Pane.createSplit (existingLeaf newSession : TermId) (o : SplitType) (newSplit : SplitId) :
    Pane → Pane
  | .term t =>
      if t = existingLeaf then .split newSplit o (.term t) (.term newSession) else .term t
  | .split s o2 l r =>
      .split s o2 (l.createSplit existingLeaf newSession o newSplit)
        (r.createSplit existingLeaf newSession o newSplit)

/-- The map `tabIndexMap`: widget address to tab position. -/
abbrev TabIndexMap := List (QWidgetPtr × Int)

/-- The statement `m[k] = v`. -/
def TabIndexMap.assign : TabIndexMap → QWidgetPtr → Int → TabIndexMap
  | [], k, v => [(k, v)]
  | (k2, v2) :: rest, k, v =>
      if k2 = k then (k, v) :: rest else (k2, v2) :: TabIndexMap.assign rest k v

/-- The lookup `m.find(k)`; `none` is `m.end()`. -/
def TabIndexMap.find : TabIndexMap → QWidgetPtr → Option Int
  | [], _ => none
  | (k2, v2) :: rest, k => if k2 = k then some v2 else TabIndexMap.find rest k

/-- An element of `widgetAtIndex`: `std::pair<GuiSplitter*, GuiTerminalWindow*>`. -/
abbrev IndexPair := Option SplitId × Option TermId

/-- The statement `v.resize(n)`: truncate, or pad with value-initialised pairs. -/
def vectorResize (v : List IndexPair) (n : Nat) : List IndexPair :=
  v.take n ++ List.replicate (n - v.length) (none, none)

/-- Faults of the embedding. -/
inductive Fault
  | vectorOutOfRange
  deriving DecidableEq

/-- The read `v[i]` for an `int` index. -/
def vectorAt (v : List IndexPair) (i : Int) : Except Fault IndexPair :=
  if i < 0 then .error .vectorOutOfRange
  else
    match v[i.toNat]? with
    | some p => .ok p
    | none => .error .vectorOutOfRange

/-- The two confirmation prompts. -/
inductive Prompt
  | closeAllSessions
  | closeAllPanes
  deriving DecidableEq

/-- The button returned by `QMessageBox::question(..., Yes|No)`. -/
inductive StandardButton
  | Yes
  | No
  deriving DecidableEq

/-- Calls made into collaborators. -/
inductive Event
  | on_sessionTitleChange (t : TermId) (force : Bool)
  | reqCloseTerminal (w : QWidgetPtr) (cascade : Bool)
  | question (p : Prompt)
  | writeSettings
  | setCurrentWidget (w : QWidgetPtr)
  | setFocus (w : QWidgetPtr)
  | initTerminal (t : TermId)
  | deleteTerminal (t : TermId)
  deriving DecidableEq

/-- The layout state of the main window. -/
structure GuiMainWindow where
  /-- The page widgets of `tabArea`, in tab order. -/
  tabArea : List Pane
  terminalList : List TermId
  tabIndexMap : TabIndexMap
  widgetAtIndex : List IndexPair
  deriving DecidableEq

/-- A window state together with the trace of collaborator calls so far. -/
structure Run where
  win : GuiMainWindow
  trace : List Event
  deriving DecidableEq

/-- Qt's focus bookkeeping, as read at entry to an operation. -/
structure QtFocus where
  /-- The value of `tabArea->currentWidget()`. -/
  currentWidget : QWidgetPtr
  /-- The value of `w->focusWidget()`. -/
  focusWidget : QWidgetPtr → QWidgetPtr

/-- What `reqCloseTerminal(cascade)` of a session or splitter does to the window
state when it re-enters the window. -/
abbrev CloseRoutine := QWidgetPtr → Bool → GuiMainWindow → GuiMainWindow

/-- Append one event to the trace. -/
def Run.emit (r : Run) (e : Event) : Run :=
  { r with trace := r.trace ++ [e] }

/-- The call `w->reqCloseTerminal(cascade)`. -/
def Run.reqClose (fx : CloseRoutine) (r : Run) (w : QWidgetPtr) (cascade : Bool) : Run :=
  { win := fx w cascade r.win, trace := r.trace ++ [.reqCloseTerminal w cascade] }

/-- The value of `tabArea->widget(i)`. -/
def widget (tabs : List Pane) (i : Nat) : Option Pane :=
  tabs[i]?

/-- Modelled from the spec: the tab container's `insert(position, widget, title)`
(`QTabWidget::insertTab`): an out-of-range position appends. -/
def insertTab (tabs : List Pane) (index : Int) (w : Pane) : List Pane :=
  if index < 0 ∨ (tabs.length : Int) ≤ index then tabs ++ [w]
  else tabs.take index.toNat ++ w :: tabs.drop index.toNat

/-- Modelled from the spec: the tab container's `remove(position)`
(`QTabWidget::removeTab`). -/
def removeTab (tabs : List Pane) (index : Int) : List Pane :=
  if index < 0 then tabs else tabs.eraseIdx index.toNat

/-- Modelled from the spec: `QTabWidget::indexOf`, the position of the tab whose
page is the widget, or `-1`. -/
def indexOf (tabs : List Pane) (w : QWidgetPtr) : Int :=
  match tabs.findIdx? (fun p => decide (p.ptr = w)) with
  | some i => (i : Int)
  | none => -1

/-- The method `GuiMainWindow::tabInsert`. -/
def tabInsert (r : Run) (tabind : Int) (w : Pane) : Run :=
  { r with win := { r.win with tabArea := insertTab r.win.tabArea tabind w } }

/-- The method `GuiMainWindow::tabRemove`. -/
def tabRemove (r : Run) (tabind : Int) : Run :=
  { r with win := { r.win with tabArea := removeTab r.win.tabArea tabind } }

/-- The inner loop of `on_tabLayoutChanged` over the populated list. -/
def titleLoop (i : Nat) (r : Run) (list : List TermId) : Run :=
  list.foldl
    (fun acc t =>
      { win := { acc.win with tabIndexMap := acc.win.tabIndexMap.assign (.term t) (i : Int) },
        trace := acc.trace ++ [.on_sessionTitleChange t true] })
    r

/-- One iteration of the outer loop of `on_tabLayoutChanged`, at position `i`. -/
def tabLayoutStep (r : Run) (i : Nat) : Run :=
  match widget r.win.tabArea i with
  | none =>
      { r with win := { r.win with
          tabIndexMap := r.win.tabIndexMap.assign .null (i : Int),
          widgetAtIndex := r.win.widgetAtIndex.set i (none, none) } }
  | some (.term t) =>
      { win := { r.win with
          tabIndexMap := r.win.tabIndexMap.assign (.term t) (i : Int),
          widgetAtIndex := r.win.widgetAtIndex.set i (none, some t) },
        trace := r.trace ++ [.on_sessionTitleChange t true] }
  | some (.split s o l rt) =>
      let r1 : Run :=
        { r with win := { r.win with
            tabIndexMap := r.win.tabIndexMap.assign (.splitter s) (i : Int) } }
      let r2 := titleLoop i r1 (Pane.split s o l rt).populateAllTerminals
      { r2 with win := { r2.win with
          widgetAtIndex := r2.win.widgetAtIndex.set i (some s, none) } }

/-- The method `GuiMainWindow::on_tabLayoutChanged`. -/
def on_tabLayoutChanged (r : Run) : Run :=
  let r0 : Run :=
    { r with win := { r.win with
        tabIndexMap := [],
        widgetAtIndex := vectorResize r.win.widgetAtIndex r.win.tabArea.length } }
  (List.range r.win.tabArea.length).foldl tabLayoutStep r0

/-- The method `GuiMainWindow::getTerminalTabInd`. -/
def getTerminalTabInd (st : GuiMainWindow) (term : QWidgetPtr) : Int :=
  match st.tabIndexMap.find term with
  | some i => i
  | none => -1

/-- The method `GuiMainWindow::getCurrentTerminal`. -/
def getCurrentTerminal (qt : QtFocus) (st : GuiMainWindow) : Option TermId :=
  match qt.currentWidget with
  | .null => none
  | w =>
      match (qt.focusWidget w).asTerm with
      | none => none
      | some t => if t ∈ st.terminalList then some t else none

/-- The method `GuiMainWindow::getCurrentTerminalInTab`. -/
def getCurrentTerminalInTab (qt : QtFocus) (st : GuiMainWindow) (tabIndex : Int) :
    Except Fault (Option TermId) :=
  match vectorAt st.widgetAtIndex tabIndex with
  | .error f => .error f
  | .ok it =>
      match it.2, it.1 with
      | some t, _ => .ok (some t)
      | none, none => .ok none
      | none, some s => .ok (qt.focusWidget (.splitter s)).asTerm

/-- The call `w->focusWidget()->setFocus()` guarded by `if (w->focusWidget())`. -/
def focusInside (qt : QtFocus) (r : Run) (w : QWidgetPtr) : Run :=
  match qt.focusWidget w with
  | .null => r
  | f => r.emit (.setFocus f)

/-- The slot `GuiMainWindow::currentChanged`. -/
def currentChanged (qt : QtFocus) (r : Run) (index : Int) : Run :=
  if index < 0 then r
  else if index < (r.win.widgetAtIndex.length : Int) then
    match r.win.widgetAtIndex[index.toNat]? with
    | some (some s, _) => focusInside qt r (.splitter s)
    | some (none, some t) => r.emit (.setFocus (.term t))
    | _ => r
  else
    match widget r.win.tabArea index.toNat with
    | some (.split s _ _ _) => focusInside qt r (.splitter s)
    | some (.term t) => r.emit (.setFocus (.term t))
    | none => r

/-- The method `GuiMainWindow::closeTerminal`. -/
def closeTerminal (r : Run) (termWnd : TermId) : Run :=
  let ind := indexOf r.win.tabArea (.term termWnd)
  let r1 : Run :=
    { r with win := { r.win with
        terminalList := r.win.terminalList.filter (fun t => decide (t ≠ termWnd)) } }
  let r2 := if ind ≠ -1 then tabRemove r1 ind else r1
  on_tabLayoutChanged r2

/-- The body of the `if` in `closeEvent`: close every session, clear the
registry, write the settings, accept the event. -/
def closeAll (fx : CloseRoutine) (r : Run) : Run × Bool :=
  let child := r.win.terminalList
  let r1 := child.foldl (fun acc t => acc.reqClose fx (.term t) true) r
  let r2 : Run := { r1 with win := { r1.win with terminalList := [] } }
  (r2.emit .writeSettings, true)

/-- The method `GuiMainWindow::closeEvent`.  The Boolean is the accepted flag of
the event on return (`event->ignore()` first, `event->accept()` in the body). -/
def closeEvent (fx : CloseRoutine) (r : Run) (answer : StandardButton) : Run × Bool :=
  if r.win.tabArea.length = 0 then closeAll fx r
  else
    let r1 := r.emit (.question .closeAllSessions)
    if answer = .Yes then closeAll fx r1 else (r1, false)

/-- The slot `GuiMainWindow::tabCloseRequested`. -/
def tabCloseRequested (fx : CloseRoutine) (r : Run) (index : Int) (answer : StandardButton) :
    Except Fault Run :=
  match vectorAt r.win.widgetAtIndex index with
  | .error f => .error f
  | .ok it =>
      match it.2, it.1 with
      | some t, _ => .ok (r.reqClose fx (.term t) false)
      | none, some s =>
          let r1 := r.emit (.question .closeAllPanes)
          if answer = .No then .ok r1 else .ok (r1.reqClose fx (.splitter s) true)
      | none, none => .ok r

/-- The call `currTerm->createSplitLayout(split, newTerm)`, on the tab sequence. -/
def createSplitLayout (r : Run) (currTerm : TermId) (split : SplitType) (newTerm : TermId)
    (newSplit : SplitId) : Run :=
  { r with win := { r.win with
      tabArea := r.win.tabArea.map (Pane.createSplit currTerm newTerm split newSplit) } }

/-- The method `GuiMainWindow::setupLayout`.  `newSplit` is the address of the
splitter that a split allocates. -/
def setupLayout (qt : QtFocus) (r : Run) (newTerm : TermId) (split : SplitType) (tabind : Int)
    (newSplit : SplitId) : Int × Run :=
  let split := if r.win.tabArea.length = 0 then SplitType.TYPE_LEAF else split
  match split with
  | .TYPE_LEAF =>
      let r1 := tabInsert r tabind (.term newTerm)
      let r2 : Run :=
        { r1 with win := { r1.win with terminalList := r1.win.terminalList ++ [newTerm] } }
      let r3 := r2.emit (.setCurrentWidget (.term newTerm))
      (0, on_tabLayoutChanged r3)
  | .TYPE_HORIZONTAL | .TYPE_VERTICAL =>
      match getCurrentTerminal qt r.win with
      | none => (-1, r)
      | some currTerm =>
          let r1 := createSplitLayout r currTerm split newTerm newSplit
          let r2 := r1.emit (.setFocus (.term newTerm))
          let r3 : Run :=
            { r2 with win := { r2.win with terminalList := r2.win.terminalList ++ [newTerm] } }
          (0, on_tabLayoutChanged r3)
  | .TYPE_OTHER => (-1, r)

/-- The method `GuiMainWindow::createNewTab`.  `newWnd` is the address of the
session it allocates, `rc` the return code of `newWnd->initTerminal()`, and
`tabind` the default position argument of `setupLayout`. -/
def createNewTab (qt : QtFocus) (r : Run) (newWnd : TermId) (rc : Int) (splittype : SplitType)
    (tabind : Int) (newSplit : SplitId) : Run :=
  let r1 := r.emit (.initTerminal newWnd)
  if rc ≠ 0 then r1.emit (.deleteTerminal newWnd)
  else
    let res := setupLayout qt r1 newWnd splittype tabind newSplit
    if res.1 ≠ 0 then res.2.emit (.deleteTerminal newWnd) else res.2

/-- The keys that the tab with page `p` contributes to `tabIndexMap`, in the order
`on_tabLayoutChanged` assigns them: the page itself, then, for a splitter, every
populated session. -/
def Pane.keys : Pane → List QWidgetPtr
  | .term t => [.term t]
  | .split s o l r => .splitter s :: (Pane.split s o l r).populateAllTerminals.map .term

/-- The pair that `on_tabLayoutChanged` stores in `widgetAtIndex` for page `p`. -/
def Pane.indexPair : Pane → IndexPair
  | .term t => (none, some t)
  | .split s _ _ _ => (some s, none)

/-- The title refreshes that `on_tabLayoutChanged` requests for page `p`. -/
def Pane.titleEvents (p : Pane) : List Event :=
  p.populateAllTerminals.map (fun t => Event.on_sessionTitleChange t true)

/-- The sessions shown in the tab with page `p`: the page itself if it is a bare
session, the populated sessions if it is a splitter. -/
def Pane.sessions (p : Pane) : List TermId :=
  p.populateAllTerminals

/-- Whether the page of a tab is a splitter. -/
def Pane.isSplit : Pane → Bool
  | .term _ => false
  | .split _ _ _ _ => true

/-- The assignments made by `on_tabLayoutChanged` for the tabs `ps`, the first of
which stands at position `k`. -/
def indexEntries (k : Nat) : List Pane → List (QWidgetPtr × Int)
  | [] => []
  | p :: ps => p.keys.map (fun w => (w, (k : Int))) ++ indexEntries (k + 1) ps

/-- A run of assignments `m[k] = v`. -/
def assignAll (m : TabIndexMap) (kvs : List (QWidgetPtr × Int)) : TabIndexMap :=
  kvs.foldl (fun acc kv => acc.assign kv.1 kv.2) m

/-- Each terminal session is shown under at most one tab: no session of one tab
is also a session of another. -/
def SessionsInOneTab (tabs : List Pane) : Prop :=
  tabs.Pairwise (fun p q => ∀ t ∈ p.sessions, t ∉ q.sessions)

instance (tabs : List Pane) : Decidable (SessionsInOneTab tabs) := by
  unfold SessionsInOneTab
  infer_instance

/-- Every widget of the tab sequence is one object: no address occurs twice. -/
def WidgetsDistinct (tabs : List Pane) : Prop :=
  (tabs.flatMap Pane.widgets).Nodup

instance (tabs : List Pane) : Decidable (WidgetsDistinct tabs) := by
  unfold WidgetsDistinct
  infer_instance

/-- Whether a widget is shown in the tab sequence as a tab page or as a session
under a tab. -/
def ShownInTabs (tabs : List Pane) (w : QWidgetPtr) : Prop :=
  ∃ p ∈ tabs, w = p.ptr ∨ ∃ t ∈ p.sessions, w = .term t

/-- The index is fresh: the stored maps are what a rebuild from the current tab
sequence produces. -/
def IndexFresh (st : GuiMainWindow) : Prop :=
  st.tabIndexMap = (on_tabLayoutChanged ⟨st, []⟩).win.tabIndexMap ∧
    st.widgetAtIndex = (on_tabLayoutChanged ⟨st, []⟩).win.widgetAtIndex

instance (st : GuiMainWindow) : Decidable (IndexFresh st) := by
  unfold IndexFresh
  infer_instance

/-- The window with no tab and no session. -/
def emptyWindow : GuiMainWindow :=
  { tabArea := [], terminalList := [], tabIndexMap := [], widgetAtIndex := [] }

/-- One tab whose page is a horizontal split of sessions 1 and 2. -/
def splitTab : List Pane :=
  [.split 10 .TYPE_HORIZONTAL (.term 1) (.term 2)]

/-- A bare session, a nested split, and another bare session. -/
def threeTabs : List Pane :=
  [.term 5, .split 10 .TYPE_HORIZONTAL (.term 1) (.split 11 .TYPE_VERTICAL (.term 2) (.term 3)),
    .term 9]

/-- Focus bookkeeping in which nothing has focus. -/
def noFocus : QtFocus :=
  { currentWidget := .null, focusWidget := fun _ => .null }

/-- A close routine that does not touch the window. -/
def inertClose : CloseRoutine :=
  fun _ _ st => st

/-- The window right after the first tab was inserted and before the index was
rebuilt: `tabInsert(-1, 7, "")` on the empty window. -/
def staleWindow : GuiMainWindow :=
  (tabInsert ⟨emptyWindow, []⟩ (-1) (.term 7)).win

/-- One tab showing the bare session 1, registered, with a fresh index. -/
def oneTabWindow : GuiMainWindow :=
  { tabArea := [.term 1], terminalList := [1], tabIndexMap := [(.term 1, 0)],
    widgetAtIndex := [(none, some 1)] }

/-- One tab showing a split of sessions 1 and 2, registered, with a fresh index. -/
def splitTabWindow : GuiMainWindow :=
  { tabArea := splitTab, terminalList := [1, 2],
    tabIndexMap := [(.splitter 10, 0), (.term 1, 0), (.term 2, 0)],
    widgetAtIndex := [(some 10, none)] }

/-- Focus bookkeeping in which session 1 is current and focused. -/
def focusOnOne : QtFocus :=
  { currentWidget := .term 1, focusWidget := fun _ => .term 1 }


theorem titleLoop_eq (i : Nat) (list : List TermId) (r : Run) :
    titleLoop i r list =
      { win := { r.win with
          tabIndexMap := assignAll r.win.tabIndexMap (list.map (fun t => (QWidgetPtr.term t, (i : Int)))) },
        trace := r.trace ++ list.map (fun t => Event.on_sessionTitleChange t true) } := by
  induction list generalizing r with
  | nil => simp [titleLoop, assignAll]
  | cons t ts ih =>
    have h := ih { win := { r.win with tabIndexMap := r.win.tabIndexMap.assign (.term t) (i : Int) },
                   trace := r.trace ++ [.on_sessionTitleChange t true] }
    simp only [titleLoop, List.foldl_cons] at h ⊢
    rw [h]
    simp [assignAll]

theorem tabLayoutStep_eq (r : Run) (i : Nat) (p : Pane) (h : widget r.win.tabArea i = some p) :
    tabLayoutStep r i =
      { win := { r.win with
          tabIndexMap := assignAll r.win.tabIndexMap (p.keys.map (fun w => (w, (i : Int)))),
          widgetAtIndex := r.win.widgetAtIndex.set i p.indexPair },
        trace := r.trace ++ p.titleEvents } := by
  cases p with
  | term t =>
    simp [tabLayoutStep, h, Pane.keys, Pane.indexPair, Pane.titleEvents, assignAll,
      Pane.populateAllTerminals]
  | split s o l rt =>
    simp [tabLayoutStep, h, titleLoop_eq, Pane.keys, Pane.indexPair, Pane.titleEvents, assignAll,
      List.map_map, Function.comp_def]


theorem indexEntries_append (k : Nat) (xs ys : List Pane) :
    indexEntries k (xs ++ ys) = indexEntries k xs ++ indexEntries (k + xs.length) ys := by
  induction xs generalizing k with
  | nil => simp [indexEntries]
  | cons p0 xs ih =>
    have hk : k + 1 + xs.length = k + (xs.length + 1) := by omega
    show p0.keys.map (fun w => (w, (k : Int))) ++ indexEntries (k + 1) (xs ++ ys) = _
    rw [ih (k + 1), hk]
    simp [indexEntries]

theorem assignAll_append (m : TabIndexMap) (a b : List (QWidgetPtr × Int)) :
    assignAll m (a ++ b) = assignAll (assignAll m a) b := by
  simp [assignAll]

theorem set_after_init {α : Type} (a v : List α) (x : α) (hn : a.length < v.length) :
    (a ++ v.drop a.length).set a.length x = a ++ x :: v.drop (a.length + 1) := by
  induction a generalizing v with
  | nil =>
    cases v with
    | nil => simp at hn
    | cons y ys => simp
  | cons b bs ih =>
    cases v with
    | nil => simp at hn
    | cons y ys =>
      simp only [List.length_cons, Nat.add_lt_add_iff_right] at hn
      simpa using ih ys hn

theorem tabLoop_eq (r0 : Run) (n : Nat) (hn : n ≤ r0.win.tabArea.length)
    (hv : r0.win.widgetAtIndex.length = r0.win.tabArea.length) :
    (List.range n).foldl tabLayoutStep r0 =
      { win := { r0.win with
          tabIndexMap := assignAll r0.win.tabIndexMap (indexEntries 0 (r0.win.tabArea.take n)),
          widgetAtIndex :=
            (r0.win.tabArea.take n).map Pane.indexPair ++ r0.win.widgetAtIndex.drop n },
        trace := r0.trace ++ (r0.win.tabArea.take n).flatMap Pane.titleEvents } := by
  induction n with
  | zero => simp [indexEntries, assignAll]
  | succ n ih =>
    have hlt : n < r0.win.tabArea.length := hn
    rw [List.range_succ, List.foldl_append, ih (Nat.le_of_lt hlt)]
    have hw : widget r0.win.tabArea n = some (r0.win.tabArea[n]) := by
      simp [widget, List.getElem?_eq_getElem hlt]
    simp only [List.foldl_cons, List.foldl_nil]
    refine (tabLayoutStep_eq _ n (r0.win.tabArea[n]) (by exact hw)).trans ?_
    have htake : r0.win.tabArea.take (n + 1) = r0.win.tabArea.take n ++ [r0.win.tabArea[n]] := by
      rw [List.take_succ, List.getElem?_eq_getElem hlt]; rfl
    have hlen : (List.map Pane.indexPair (List.take n r0.win.tabArea)).length = n := by
      simp [Nat.min_eq_left (Nat.le_of_lt hlt)]
    have hset := set_after_init (List.map Pane.indexPair (List.take n r0.win.tabArea))
      r0.win.widgetAtIndex (r0.win.tabArea[n]).indexPair (by rw [hlen, hv]; exact hlt)
    rw [hlen] at hset
    simp only [hset, htake, indexEntries_append, assignAll_append, List.map_append, List.flatMap_append,
      List.length_take, Nat.min_eq_left (Nat.le_of_lt hlt), indexEntries]
    simp [assignAll]

theorem vectorResize_length (v : List IndexPair) (n : Nat) : (vectorResize v n).length = n := by
  simp [vectorResize]; omega

/-- Closed form of `on_tabLayoutChanged`. -/
theorem on_tabLayoutChanged_eq (r : Run) :
    on_tabLayoutChanged r =
      { win := { r.win with
          tabIndexMap := assignAll [] (indexEntries 0 r.win.tabArea),
          widgetAtIndex := r.win.tabArea.map Pane.indexPair },
        trace := r.trace ++ r.win.tabArea.flatMap Pane.titleEvents } := by
  unfold on_tabLayoutChanged
  simp only
  rw [tabLoop_eq _ _ (Nat.le_refl _) (by simp [vectorResize_length])]
  simp [vectorResize_length, List.drop_of_length_le]


theorem find_assign (m : TabIndexMap) (k : QWidgetPtr) (v : Int) (k2 : QWidgetPtr) :
    (m.assign k v).find k2 = if k = k2 then some v else m.find k2 := by
  induction m with
  | nil => simp [TabIndexMap.assign, TabIndexMap.find]
  | cons kv rest ih =>
    obtain ⟨a, b⟩ := kv
    by_cases hak : a = k
    · subst hak
      simp only [TabIndexMap.assign, TabIndexMap.find, if_true]
      split <;> rfl
    · by_cases hk2 : a = k2
      · subst hk2
        have : ¬ k = a := fun h => hak h.symm
        simp [TabIndexMap.assign, TabIndexMap.find, hak, this]
      · simp [TabIndexMap.assign, TabIndexMap.find, hak, hk2, ih]

theorem length_assign (m : TabIndexMap) (k : QWidgetPtr) (v : Int) :
    (m.assign k v).length = if m.find k = none then m.length + 1 else m.length := by
  induction m with
  | nil => simp [TabIndexMap.assign, TabIndexMap.find]
  | cons kv rest ih =>
    obtain ⟨a, b⟩ := kv
    by_cases hak : a = k
    · simp [TabIndexMap.assign, TabIndexMap.find, hak]
    · simp only [TabIndexMap.assign, TabIndexMap.find, hak, if_false, List.length_cons, ih]
      split <;> rfl

theorem find_assignAll_of_not_mem (kvs : List (QWidgetPtr × Int)) (m : TabIndexMap)
    (k : QWidgetPtr) (h : ∀ v, (k, v) ∉ kvs) : (assignAll m kvs).find k = m.find k := by
  induction kvs generalizing m with
  | nil => rfl
  | cons kv rest ih =>
    obtain ⟨a, b⟩ := kv
    have hne : ¬ a = k := by
      intro hak
      exact h b (by simp [hak])
    have hrest : ∀ v, (k, v) ∉ rest := fun v hv => h v (List.mem_cons_of_mem _ hv)
    show (assignAll (m.assign a b) rest).find k = _
    rw [ih _ hrest, find_assign, if_neg hne]

theorem find_assignAll_of_mem (kvs : List (QWidgetPtr × Int)) (m : TabIndexMap)
    (k : QWidgetPtr) (v : Int) (hmem : (k, v) ∈ kvs) (hall : ∀ v2, (k, v2) ∈ kvs → v2 = v) :
    (assignAll m kvs).find k = some v := by
  induction kvs generalizing m with
  | nil => simp at hmem
  | cons kv rest ih =>
    obtain ⟨a, b⟩ := kv
    show (assignAll (m.assign a b) rest).find k = _
    by_cases hin : (k, v) ∈ rest
    · exact ih _ hin (fun v2 h2 => hall v2 (List.mem_cons_of_mem _ h2))
    · have hhead : (k, v) = (a, b) := by
        rcases List.mem_cons.mp hmem with h | h
        · exact h
        · exact absurd h hin
      have hrest : ∀ v2, (k, v2) ∉ rest := by
        intro v2 h2
        have := hall v2 (List.mem_cons_of_mem _ h2)
        subst this
        exact hin h2
      rw [find_assignAll_of_not_mem rest _ k hrest, find_assign]
      simp only [Prod.mk.injEq] at hhead
      simp [hhead.1, hhead.2]

theorem length_assignAll (kvs : List (QWidgetPtr × Int)) (m : TabIndexMap)
    (hnd : (kvs.map Prod.fst).Nodup) (hfresh : ∀ kv ∈ kvs, m.find kv.1 = none) :
    (assignAll m kvs).length = m.length + kvs.length := by
  induction kvs generalizing m with
  | nil => rfl
  | cons kv rest ih =>
    obtain ⟨a, b⟩ := kv
    simp only [List.map_cons, List.nodup_cons] at hnd
    show (assignAll (m.assign a b) rest).length = _
    rw [ih _ hnd.2, length_assign, if_pos (hfresh (a, b) (by simp))]
    · simp only [List.length_cons]; omega
    · intro kv hkv
      rw [find_assign]
      have hne : ¬ a = kv.1 := by
        intro h
        exact hnd.1 (h ▸ List.mem_map_of_mem Prod.fst hkv)
      rw [if_neg hne]
      exact hfresh kv (List.mem_cons_of_mem _ hkv)

theorem mem_indexEntries (tabs : List Pane) (k : Nat) (w : QWidgetPtr) (v : Int) :
    (w, v) ∈ indexEntries k tabs ↔
      ∃ j p, tabs[j]? = some p ∧ w ∈ p.keys ∧ v = ((k + j : Nat) : Int) := by
  induction tabs generalizing k with
  | nil => simp [indexEntries]
  | cons q qs ih =>
    simp only [indexEntries, List.mem_append, List.mem_map, Prod.mk.injEq, ih]
    constructor
    · rintro (⟨a, ha, rfl, rfl⟩ | ⟨j, p, hj, hw, hv⟩)
      · exact ⟨0, q, by simp, ha, by simp⟩
      · refine ⟨j + 1, p, by simpa using hj, hw, ?_⟩
        rw [hv]; congr 1; omega
    · rintro ⟨j, p, hj, hw, hv⟩
      cases j with
      | zero =>
        simp only [List.getElem?_cons_zero, Option.some.injEq] at hj
        subst hj
        exact Or.inl ⟨w, hw, rfl, by simpa using hv.symm⟩
      | succ j =>
        refine Or.inr ⟨j, p, by simpa using hj, hw, ?_⟩
        rw [hv]; congr 1; omega

theorem map_fst_indexEntries (tabs : List Pane) (k : Nat) :
    (indexEntries k tabs).map Prod.fst = tabs.flatMap Pane.keys := by
  induction tabs generalizing k with
  | nil => rfl
  | cons q qs ih => simp [indexEntries, ih, List.map_map, Function.comp_def]

theorem term_mem_keys (p : Pane) (t : TermId) :
    QWidgetPtr.term t ∈ p.keys ↔ t ∈ p.sessions := by
  cases p with
  | term s => simp [Pane.keys, Pane.sessions, Pane.populateAllTerminals]
  | split s o l r => simp [Pane.keys, Pane.sessions]

theorem terms_sublist_widgets (p : Pane) :
    List.Sublist (p.populateAllTerminals.map QWidgetPtr.term) p.widgets := by
  induction p with
  | term t => simp [Pane.populateAllTerminals, Pane.widgets]
  | split s o l r ihl ihr =>
    simp only [Pane.populateAllTerminals, Pane.widgets, List.map_append]
    exact List.Sublist.cons _ (List.Sublist.append ihl ihr)

theorem keys_sublist_widgets (p : Pane) : List.Sublist p.keys p.widgets := by
  cases p with
  | term t => simp [Pane.keys, Pane.widgets]
  | split s o l r =>
    have h := terms_sublist_widgets (Pane.split s o l r)
    simp only [Pane.populateAllTerminals, Pane.widgets, List.map_append] at h
    simp only [Pane.keys, Pane.widgets, Pane.populateAllTerminals, List.map_append]
    have hl := terms_sublist_widgets l
    have hr := terms_sublist_widgets r
    exact List.Sublist.cons₂ _ (List.Sublist.append hl hr)

theorem flatMap_keys_sublist (tabs : List Pane) :
    List.Sublist (tabs.flatMap Pane.keys) (tabs.flatMap Pane.widgets) := by
  induction tabs with
  | nil => simp
  | cons q qs ih =>
    simp only [List.flatMap_cons]
    exact List.Sublist.append (keys_sublist_widgets q) ih

theorem length_flatMap_keys (tabs : List Pane) :
    (tabs.flatMap Pane.keys).length =
      (tabs.flatMap Pane.sessions).length + (tabs.filter Pane.isSplit).length := by
  induction tabs with
  | nil => rfl
  | cons q qs ih =>
    cases q with
    | term t =>
      simp [Pane.keys, Pane.sessions, Pane.populateAllTerminals, Pane.isSplit, ih]
      omega
    | split s o l r =>
      simp [Pane.keys, Pane.sessions, Pane.populateAllTerminals, Pane.isSplit, ih]
      omega


/-- C1 (as stated) fails: for one tab whose page is a split of sessions 1 and 2,
the rebuilt `tabIndexMap` has three entries (the splitter and both sessions),
not two, while the tab holds two sessions. -/
theorem tabIndexMap_size_split_tab :
    (on_tabLayoutChanged ⟨{ emptyWindow with tabArea := splitTab }, []⟩).win.tabIndexMap =
        [(.splitter 10, 0), (.term 1, 0), (.term 2, 0)] ∧
      (splitTab.flatMap Pane.sessions).length = 2 ∧
      (on_tabLayoutChanged ⟨{ emptyWindow with tabArea := splitTab }, []⟩).win.tabIndexMap.length ≠
        (splitTab.flatMap Pane.sessions).length := by
  decide

/-- C1 (amended): when no widget occurs twice in the tab sequence, the number of
entries of `tabIndexMap` after `on_tabLayoutChanged` is the number of terminal
sessions across all tabs plus the number of tabs whose page is a splitter. -/
theorem tabIndexMap_size (r : Run) (h : WidgetsDistinct r.win.tabArea) :
    (on_tabLayoutChanged r).win.tabIndexMap.length =
      (r.win.tabArea.flatMap Pane.sessions).length + (r.win.tabArea.filter Pane.isSplit).length := by
  rw [on_tabLayoutChanged_eq]
  simp only
  rw [length_assignAll]
  · have hl : (indexEntries 0 r.win.tabArea).length = (r.win.tabArea.flatMap Pane.keys).length := by
      rw [← map_fst_indexEntries r.win.tabArea 0, List.length_map]
    simp only [List.length_nil, Nat.zero_add, hl, length_flatMap_keys]
  · rw [map_fst_indexEntries]
    exact List.Nodup.sublist (flatMap_keys_sublist _) h
  · intro kv _
    rfl

/-- Witness for C1 (amended): three tabs, one of them a nested split. -/
theorem tabIndexMap_size_witness :
    WidgetsDistinct threeTabs ∧
      (on_tabLayoutChanged ⟨{ emptyWindow with tabArea := threeTabs }, []⟩).win.tabIndexMap.length =
        (threeTabs.flatMap Pane.sessions).length + (threeTabs.filter Pane.isSplit).length :=
  ⟨by decide, tabIndexMap_size ⟨{ emptyWindow with tabArea := threeTabs }, []⟩ (by decide)⟩


theorem widgetAtIndex_after_rebuild (r : Run) (i : Nat) (p : Pane)
    (hp : widget r.win.tabArea i = some p) :
    vectorAt (on_tabLayoutChanged r).win.widgetAtIndex (i : Int) = .ok p.indexPair := by
  rw [on_tabLayoutChanged_eq]
  have hp2 : r.win.tabArea[i]? = some p := hp
  simp [vectorAt, List.getElem?_map, hp2]

theorem find_session_after_rebuild (tabs : List Pane) (h : SessionsInOneTab tabs) (i : Nat)
    (p : Pane) (hp : tabs[i]? = some p) (t : TermId) (ht : t ∈ p.sessions) :
    (assignAll [] (indexEntries 0 tabs)).find (.term t) = some (i : Int) := by
  apply find_assignAll_of_mem
  · rw [mem_indexEntries]
    exact ⟨i, p, hp, (term_mem_keys p t).mpr ht, by simp⟩
  · intro v2 hv2
    rw [mem_indexEntries] at hv2
    obtain ⟨j, q, hq, hw, hv⟩ := hv2
    have htq : t ∈ q.sessions := (term_mem_keys q t).mp hw
    obtain ⟨hi, hpi⟩ := List.getElem?_eq_some.mp hp
    obtain ⟨hj, hqj⟩ := List.getElem?_eq_some.mp hq
    have hpw := List.pairwise_iff_getElem.mp h
    have hij : j = i := by
      rcases Nat.lt_trichotomy j i with hlt | heq | hgt
      · exact absurd (hpi ▸ ht) (hpw j i hj hi hlt t (hqj ▸ htq))
      · exact heq
      · exact absurd (hqj ▸ htq) (hpw i j hi hj hgt t (hpi ▸ ht))
    rw [hv, hij]; simp

theorem find_none_after_rebuild (tabs : List Pane) (w : QWidgetPtr)
    (hw : ¬ ShownInTabs tabs w) : (assignAll [] (indexEntries 0 tabs)).find w = none := by
  rw [find_assignAll_of_not_mem]
  · rfl
  · intro v hv
    rw [mem_indexEntries] at hv
    obtain ⟨j, p, hp, hk, _⟩ := hv
    apply hw
    refine ⟨p, List.getElem?_mem hp, ?_⟩
    cases p with
    | term s =>
      simp only [Pane.keys, List.mem_singleton] at hk
      exact Or.inl (by simpa [Pane.ptr] using hk)
    | split s o l rt =>
      simp only [Pane.keys, List.mem_cons, List.mem_map] at hk
      rcases hk with hk | ⟨t, ht, rfl⟩
      · exact Or.inl (by simpa [Pane.ptr] using hk)
      · exact Or.inr ⟨t, ht, rfl⟩

/-- C2: when each terminal session is shown under one tab only, after
`on_tabLayoutChanged`, at every tab position `i`: a bare session `s` gives
`widgetAtIndex[i] = (null, s)` and `getTerminalTabInd(s) = i`; a split root `id`
gives `widgetAtIndex[i] = (id, null)` and `getTerminalTabInd(t) = i` for every
session `t` of `populateAllTerminals`; and `getTerminalTabInd(w) = -1` for every
widget `w` that is neither a tab page nor a session under a tab. -/
theorem rebuild_lookup (r : Run) (h : SessionsInOneTab r.win.tabArea) :
    (∀ (i : Nat) (s : TermId), widget r.win.tabArea i = some (.term s) →
        vectorAt (on_tabLayoutChanged r).win.widgetAtIndex (i : Int) = .ok (none, some s) ∧
        getTerminalTabInd (on_tabLayoutChanged r).win (.term s) = (i : Int)) ∧
    (∀ (i : Nat) (id : SplitId) (o : SplitType) (l rt : Pane),
        widget r.win.tabArea i = some (.split id o l rt) →
        vectorAt (on_tabLayoutChanged r).win.widgetAtIndex (i : Int) = .ok (some id, none) ∧
        ∀ t ∈ (Pane.split id o l rt).populateAllTerminals,
          getTerminalTabInd (on_tabLayoutChanged r).win (.term t) = (i : Int)) ∧
    (∀ w : QWidgetPtr, ¬ ShownInTabs r.win.tabArea w →
        getTerminalTabInd (on_tabLayoutChanged r).win w = -1) := by
  refine ⟨?_, ?_, ?_⟩
  · intro i s hp
    refine ⟨widgetAtIndex_after_rebuild r i _ hp, ?_⟩
    have hf := find_session_after_rebuild r.win.tabArea h i _ hp s
      (by simp [Pane.sessions, Pane.populateAllTerminals])
    simp [getTerminalTabInd, on_tabLayoutChanged_eq, hf]
  · intro i id o l rt hp
    refine ⟨widgetAtIndex_after_rebuild r i _ hp, ?_⟩
    intro t ht
    have hf := find_session_after_rebuild r.win.tabArea h i _ hp t ht
    simp [getTerminalTabInd, on_tabLayoutChanged_eq, hf]
  · intro w hw
    have hf := find_none_after_rebuild r.win.tabArea w hw
    simp [getTerminalTabInd, on_tabLayoutChanged_eq, hf]

/-- Witness for C2: three tabs, one of them a nested split. -/
theorem rebuild_lookup_witness :
    SessionsInOneTab threeTabs ∧
      vectorAt (on_tabLayoutChanged ⟨{ emptyWindow with tabArea := threeTabs }, []⟩).win.widgetAtIndex 1
          = .ok (some 10, none) ∧
      getTerminalTabInd (on_tabLayoutChanged ⟨{ emptyWindow with tabArea := threeTabs }, []⟩).win
          (.term 3) = 1 :=
  have h := (rebuild_lookup ⟨{ emptyWindow with tabArea := threeTabs }, []⟩ (by decide)).2.1 1 10
    .TYPE_HORIZONTAL (.term 1) (.split 11 .TYPE_VERTICAL (.term 2) (.term 3)) rfl
  ⟨by decide, h.1, h.2 3 (by decide)⟩

/-- C3: running `on_tabLayoutChanged` twice in succession gives the same
`tabIndexMap` and the same `widgetAtIndex` as running it once, whatever the
tab sequence and the index state before. -/
theorem rebuild_idempotent (r : Run) :
    (on_tabLayoutChanged (on_tabLayoutChanged r)).win.tabIndexMap =
        (on_tabLayoutChanged r).win.tabIndexMap ∧
      (on_tabLayoutChanged (on_tabLayoutChanged r)).win.widgetAtIndex =
        (on_tabLayoutChanged r).win.widgetAtIndex := by
  simp [on_tabLayoutChanged_eq]


/-- C4: with no tab, `setupLayout(newTerm, split)` returns 0 for every split
type and behaves as Leaf: afterwards there is one tab, its page is the bare
session `newTerm` (`widgetAtIndex[0] = (null, newTerm)`), `newTerm` is appended
to `terminalList`, and no splitter exists. -/
theorem setupLayout_no_tabs (qt : QtFocus) (r : Run) (newTerm : TermId) (split : SplitType)
    (tabind : Int) (newSplit : SplitId) (h : r.win.tabArea.length = 0) :
    (setupLayout qt r newTerm split tabind newSplit).1 = 0 ∧
      (setupLayout qt r newTerm split tabind newSplit).2.win =
        { tabArea := [.term newTerm],
          terminalList := r.win.terminalList ++ [newTerm],
          tabIndexMap := [(.term newTerm, 0)],
          widgetAtIndex := [(none, some newTerm)] } := by
  have htabs : r.win.tabArea = [] := List.length_eq_zero.mp h
  have hins : insertTab [] tabind (.term newTerm) = [.term newTerm] := by
    unfold insertTab
    split <;> simp
  simp [setupLayout, htabs, tabInsert, hins, Run.emit, on_tabLayoutChanged_eq, indexEntries,
    assignAll, Pane.keys, Pane.indexPair, Pane.titleEvents, Pane.populateAllTerminals,
    TabIndexMap.assign]

/-- Witness for C4: a horizontal split requested on the empty window. -/
theorem setupLayout_no_tabs_witness :
    emptyWindow.tabArea.length = 0 ∧
      (setupLayout noFocus ⟨emptyWindow, []⟩ 7 .TYPE_HORIZONTAL (-1) 100).1 = 0 ∧
      (setupLayout noFocus ⟨emptyWindow, []⟩ 7 .TYPE_HORIZONTAL (-1) 100).2.win =
        { tabArea := [.term 7], terminalList := [7],
          tabIndexMap := [(.term 7, 0)], widgetAtIndex := [(none, some 7)] } :=
  ⟨rfl, setupLayout_no_tabs noFocus ⟨emptyWindow, []⟩ 7 .TYPE_HORIZONTAL (-1) 100 rfl⟩

/-- C5: at an in-range tab index whose pair holds a split root, when the user
answers No, `tabCloseRequested` only asks the question: no close request is
sent, and the tab sequence, `terminalList`, `tabIndexMap` and `widgetAtIndex`
are unchanged. -/
theorem tabCloseRequested_declined (fx : CloseRoutine) (st : GuiMainWindow) (index : Int)
    (s : SplitId) (h : vectorAt st.widgetAtIndex index = .ok (some s, none)) :
    tabCloseRequested fx ⟨st, []⟩ index .No =
      .ok { win := st, trace := [.question .closeAllPanes] } := by
  simp [tabCloseRequested, h, Run.emit]

/-- Witness for C5: the tab showing a split of two
sessions. -/
theorem tabCloseRequested_declined_witness :
    vectorAt splitTabWindow.widgetAtIndex 0 = .ok (some 10, none) ∧
      tabCloseRequested inertClose ⟨splitTabWindow, []⟩ 0 .No =
        .ok { win := splitTabWindow, trace := [.question .closeAllPanes] } :=
  ⟨rfl, tabCloseRequested_declined inertClose splitTabWindow 0 10 rfl⟩

/-- C6: at an in-range tab index, `tabCloseRequested` (i) with a single terminal
in the pair makes exactly one call, `reqCloseTerminal(false)` on that terminal,
and asks nothing; (ii) with a split root in the pair asks the question exactly
once and then calls `reqCloseTerminal(true)` on the split root if and only if
the answer is Yes. -/
theorem tabCloseRequested_dispatch (fx : CloseRoutine) (st : GuiMainWindow) (index : Int)
    (answer : StandardButton) (it : IndexPair) (h : vectorAt st.widgetAtIndex index = .ok it) :
    (∀ t, it.2 = some t →
        ∃ r2, tabCloseRequested fx ⟨st, []⟩ index answer = .ok r2 ∧
          r2.trace = [.reqCloseTerminal (.term t) false]) ∧
    (∀ s, it = (some s, none) →
        ∃ r2, tabCloseRequested fx ⟨st, []⟩ index answer = .ok r2 ∧
          r2.trace = Event.question .closeAllPanes ::
            (if answer = .Yes then [.reqCloseTerminal (.splitter s) true] else [])) := by
  constructor
  · intro t ht
    obtain ⟨a, b⟩ := it
    simp only at ht
    subst ht
    exact ⟨Run.reqClose fx ⟨st, []⟩ (.term t) false, by simp [tabCloseRequested, h],
      by simp [Run.reqClose]⟩
  · intro s hs
    subst hs
    cases answer with
    | Yes =>
      exact ⟨Run.reqClose fx (Run.emit ⟨st, []⟩ (.question .closeAllPanes)) (.splitter s) true,
        by simp [tabCloseRequested, h], by simp [Run.reqClose, Run.emit]⟩
    | No =>
      exact ⟨Run.emit ⟨st, []⟩ (.question .closeAllPanes), by simp [tabCloseRequested, h],
        by simp [Run.emit]⟩

/-- Witness for C6: closing the split tab, accepted. -/
theorem tabCloseRequested_dispatch_witness :
    vectorAt splitTabWindow.widgetAtIndex 0 = .ok (some 10, none) ∧
      ∃ r2, tabCloseRequested inertClose ⟨splitTabWindow, []⟩ 0 .Yes = .ok r2 ∧
        r2.trace = [.question .closeAllPanes, .reqCloseTerminal (.splitter 10) true] :=
  ⟨rfl, (tabCloseRequested_dispatch inertClose splitTabWindow 0 .Yes (some 10, none) rfl).2 10 rfl⟩

theorem reqClose_loop_trace (fx : CloseRoutine) (child : List TermId) (r : Run) :
    (child.foldl (fun acc t => acc.reqClose fx (.term t) true) r).trace =
      r.trace ++ child.map (fun t => Event.reqCloseTerminal (.term t) true) := by
  induction child generalizing r with
  | nil => simp
  | cons t ts ih =>
    simp only [List.foldl_cons, ih]
    simp [Run.reqClose]

theorem closeAll_spec (fx : CloseRoutine) (r : Run) :
    (closeAll fx r).1.trace =
        r.trace ++ r.win.terminalList.map (fun t => Event.reqCloseTerminal (.term t) true) ++
          [.writeSettings] ∧
      (closeAll fx r).1.win.terminalList = [] ∧ (closeAll fx r).2 = true := by
  simp [closeAll, Run.emit, reqClose_loop_trace]

theorem count_close_requests (l : List TermId) (hnd : l.Nodup) (t : TermId) (ht : t ∈ l) :
    (l.map (fun t => Event.reqCloseTerminal (.term t) true)).count
      (.reqCloseTerminal (.term t) true) = 1 := by
  have hinj : Function.Injective (fun t : TermId => Event.reqCloseTerminal (.term t) true) := by
    intro a b hab
    simpa using hab
  rw [List.count_map_of_injective l _ hinj t]
  exact List.count_eq_one_of_mem hnd ht

/-- C7: `closeEvent` asks for confirmation if and only if there is a tab.  With no
tab, or when the user accepts, the close requests are exactly one
`reqCloseTerminal(true)` per entry of `terminalList`, in order (so each session
of a duplicate-free `terminalList` gets exactly one, and none gets a request
with cascade false), `writeSettings` comes after all of them, `terminalList` is
empty afterwards and the event is accepted.  When the user declines, only the
question is asked: no close request, no settings written, the window state is
unchanged and the event stays ignored. -/
theorem closeEvent_spec (fx : CloseRoutine) (st : GuiMainWindow) (answer : StandardButton) :
    (Event.question .closeAllSessions ∈ (closeEvent fx ⟨st, []⟩ answer).1.trace ↔
        st.tabArea.length ≠ 0) ∧
    ((st.tabArea.length = 0 ∨ answer = .Yes) →
        (closeEvent fx ⟨st, []⟩ answer).1.trace =
            (if st.tabArea.length = 0 then [] else [Event.question .closeAllSessions]) ++
              st.terminalList.map (fun t => Event.reqCloseTerminal (.term t) true) ++
              [.writeSettings] ∧
          (st.terminalList.Nodup → ∀ t ∈ st.terminalList,
            (closeEvent fx ⟨st, []⟩ answer).1.trace.count (.reqCloseTerminal (.term t) true) = 1) ∧
          (∀ w, Event.reqCloseTerminal w false ∉ (closeEvent fx ⟨st, []⟩ answer).1.trace) ∧
          (closeEvent fx ⟨st, []⟩ answer).1.win.terminalList = [] ∧
          (closeEvent fx ⟨st, []⟩ answer).2 = true) ∧
    ((st.tabArea.length ≠ 0 ∧ answer = .No) →
        (closeEvent fx ⟨st, []⟩ answer).1.trace = [.question .closeAllSessions] ∧
          (closeEvent fx ⟨st, []⟩ answer).1.win = st ∧
          (closeEvent fx ⟨st, []⟩ answer).2 = false) := by
  by_cases h0 : st.tabArea.length = 0
  · have hce : closeEvent fx ⟨st, []⟩ answer = closeAll fx ⟨st, []⟩ := by
      simp [closeEvent, h0]
    obtain ⟨htr, hlist, hacc⟩ := closeAll_spec fx ⟨st, []⟩
    rw [hce]
    refine ⟨?_, ?_, ?_⟩
    · simp [htr, h0]
    · intro _
      refine ⟨by simp [htr, h0], ?_, ?_, hlist, hacc⟩
      · intro hnd t ht
        rw [htr]
        simp [List.count_append, count_close_requests _ hnd t ht]
      · intro w
        simp [htr]
    · intro hc
      exact absurd h0 hc.1
  · cases answer with
    | Yes =>
      have hce : closeEvent fx ⟨st, []⟩ .Yes =
          closeAll fx ⟨st, [.question .closeAllSessions]⟩ := by
        simp [closeEvent, h0, Run.emit]
      obtain ⟨htr, hlist, hacc⟩ := closeAll_spec fx ⟨st, [.question .closeAllSessions]⟩
      rw [hce]
      refine ⟨?_, ?_, ?_⟩
      · simp [htr, h0]
      · intro _
        refine ⟨by simp [htr, h0], ?_, ?_, hlist, hacc⟩
        · intro hnd t ht
          rw [htr]
          simp [List.count_append, count_close_requests _ hnd t ht]
        · intro w
          simp [htr]
      · intro hc
        exact absurd hc.2 (by decide)
    | No =>
      have hce : closeEvent fx ⟨st, []⟩ .No = (⟨st, [.question .closeAllSessions]⟩, false) := by
        simp [closeEvent, h0, Run.emit]
      rw [hce]
      refine ⟨by simp [h0], ?_, ?_⟩
      · intro hc
        rcases hc with hc | hc
        · exact absurd hc h0
        · exact absurd hc (by decide)
      · intro _
        exact ⟨rfl, rfl, rfl⟩

/-- Witness for C7: the window with one split tab, accepted. -/
theorem closeEvent_spec_witness :
    (splitTabWindow.tabArea.length = 0 ∨ StandardButton.Yes = .Yes) ∧
      (closeEvent inertClose ⟨splitTabWindow, []⟩ .Yes).1.trace =
        [.question .closeAllSessions, .reqCloseTerminal (.term 1) true,
          .reqCloseTerminal (.term 2) true, .writeSettings] ∧
      (closeEvent inertClose ⟨splitTabWindow, []⟩ .Yes).1.win.terminalList = [] ∧
      (closeEvent inertClose ⟨splitTabWindow, []⟩ .Yes).2 = true :=
  have h := (closeEvent_spec inertClose splitTabWindow .Yes).2.1 (Or.inr rfl)
  ⟨Or.inr rfl, h.1, h.2.2.2.1, h.2.2.2.2⟩


/-- C8 (failing input): right after the first tab was inserted and before the
index was rebuilt, a tab exists at position 0 and `widgetAtIndex` is empty;
`getCurrentTerminalInTab(0)` reads `widgetAtIndex[0]` outside the vector instead
of returning session 7. -/
theorem getCurrentTerminalInTab_stale_index :
    widget staleWindow.tabArea 0 = some (.term 7) ∧
      staleWindow.widgetAtIndex.length = 0 ∧
      getCurrentTerminalInTab noFocus staleWindow 0 = .error .vectorOutOfRange :=
  ⟨rfl, rfl, rfl⟩

/-- The sibling path: on the same state `currentChanged(0)` does take the slow
mode and reaches session 7 through the tab container. -/
theorem currentChanged_stale_index :
    currentChanged noFocus ⟨staleWindow, []⟩ 0 =
      ⟨staleWindow, [.setFocus (.term 7)]⟩ := by
  decide

/-- Whatever the state, `getCurrentTerminalInTab` has no fallback: a position at or
beyond `widgetAtIndex.size()` is read outside the vector. -/
theorem getCurrentTerminalInTab_beyond_index (qt : QtFocus) (st : GuiMainWindow)
    (tabIndex : Int) (h : (st.widgetAtIndex.length : Int) ≤ tabIndex) :
    getCurrentTerminalInTab qt st tabIndex = .error .vectorOutOfRange := by
  have h0 : ¬ tabIndex < 0 := by omega
  have hn : st.widgetAtIndex.length ≤ tabIndex.toNat := by omega
  simp [getCurrentTerminalInTab, vectorAt, h0, List.getElem?_eq_none hn]

/-- C9: when `initTerminal` of the new session returns non-zero, `createNewTab`
goes straight to `err_exit`: whatever the split type, it only deletes the new
session, and the tab sequence, every split tree, `terminalList`,
`tabIndexMap` and `widgetAtIndex` are unchanged. -/
theorem createNewTab_init_failure (qt : QtFocus) (r : Run) (newWnd : TermId) (rc : Int)
    (splittype : SplitType) (tabind : Int) (newSplit : SplitId) (h : rc ≠ 0) :
    createNewTab qt r newWnd rc splittype tabind newSplit =
      { win := r.win, trace := r.trace ++ [.initTerminal newWnd, .deleteTerminal newWnd] } := by
  simp [createNewTab, h, Run.emit]

/-- Witness for C9: a failed split request on the window
with one bare tab. -/
theorem createNewTab_init_failure_witness :
    (1 : Int) ≠ 0 ∧
      createNewTab focusOnOne ⟨oneTabWindow, []⟩ 2 1 .TYPE_VERTICAL (-1) 100 =
        { win := oneTabWindow, trace := [.initTerminal 2, .deleteTerminal 2] } :=
  ⟨by decide,
    createNewTab_init_failure focusOnOne ⟨oneTabWindow, []⟩ 2 1 .TYPE_VERTICAL (-1) 100 (by decide)⟩

theorem indexFresh_after_rebuild (r : Run) :
    IndexFresh (on_tabLayoutChanged r).win ∧
      (on_tabLayoutChanged r).win.widgetAtIndex.length =
        (on_tabLayoutChanged r).win.tabArea.length := by
  simp [IndexFresh, on_tabLayoutChanged_eq]

/-- C10: whenever `setupLayout` returns 0 (Leaf, Horizontal or Vertical), and
after `closeTerminal` of any session, the stored `tabIndexMap` and
`widgetAtIndex` are what a rebuild from the current tab sequence gives, and
`widgetAtIndex.size()` is the tab count. -/
theorem index_fresh_after_mutation (qt : QtFocus) (r : Run) (newTerm : TermId)
    (split : SplitType) (tabind : Int) (newSplit : SplitId) (r2 : Run) (termWnd : TermId)
    (h : setupLayout qt r newTerm split tabind newSplit = (0, r2)) :
    (IndexFresh r2.win ∧ r2.win.widgetAtIndex.length = r2.win.tabArea.length) ∧
      (IndexFresh (closeTerminal r termWnd).win ∧
        (closeTerminal r termWnd).win.widgetAtIndex.length =
          (closeTerminal r termWnd).win.tabArea.length) := by
  refine ⟨?_, indexFresh_after_rebuild _⟩
  unfold setupLayout at h
  simp only at h
  split at h
  · simp only [Prod.mk.injEq, true_and] at h
    rw [← h]
    exact indexFresh_after_rebuild _
  · split at h
    · simp at h
    · simp only [Prod.mk.injEq, true_and] at h
      rw [← h]
      exact indexFresh_after_rebuild _
  · split at h
    · simp at h
    · simp only [Prod.mk.injEq, true_and] at h
      rw [← h]
      exact indexFresh_after_rebuild _
  · simp at h

/-- Witness for C10: a vertical split of the focused
session 1, then closing session 1. -/
theorem index_fresh_after_mutation_witness :
    setupLayout focusOnOne ⟨oneTabWindow, []⟩ 2 .TYPE_VERTICAL (-1) 100 =
        (0, { win := { tabArea := [.split 100 .TYPE_VERTICAL (.term 1) (.term 2)],
                       terminalList := [1, 2],
                       tabIndexMap := [(.splitter 100, 0), (.term 1, 0), (.term 2, 0)],
                       widgetAtIndex := [(some 100, none)] },
              trace := [.setFocus (.term 2), .on_sessionTitleChange 1 true,
                .on_sessionTitleChange 2 true] }) ∧
      IndexFresh (closeTerminal ⟨oneTabWindow, []⟩ 1).win :=
  have h := index_fresh_after_mutation focusOnOne ⟨oneTabWindow, []⟩ 2 .TYPE_VERTICAL (-1) 100
    { win := { tabArea := [.split 100 .TYPE_VERTICAL (.term 1) (.term 2)],
               terminalList := [1, 2],
               tabIndexMap := [(.splitter 100, 0), (.term 1, 0), (.term 2, 0)],
               widgetAtIndex := [(some 100, none)] },
      trace := [.setFocus (.term 2), .on_sessionTitleChange 1 true,
        .on_sessionTitleChange 2 true] } 1 (by decide)
  ⟨by decide, h.2.1⟩

theorem terminalList_after_rebuild (r : Run) :
    (on_tabLayoutChanged r).win.terminalList = r.win.terminalList := by
  simp [on_tabLayoutChanged_eq]

theorem getCurrentTerminal_eq_none_iff (qt : QtFocus) (st : GuiMainWindow) :
    getCurrentTerminal qt st = none ↔
      (qt.currentWidget = .null ∨
        (qt.focusWidget qt.currentWidget).asTerm = none ∨
        ∃ t, (qt.focusWidget qt.currentWidget).asTerm = some t ∧ t ∉ st.terminalList) := by
  unfold getCurrentTerminal
  cases hcw : qt.currentWidget with
  | null => simp
  | term a =>
    cases hf : (qt.focusWidget (.term a)).asTerm with
    | none => simp [hf]
    | some t => by_cases ht : t ∈ st.terminalList <;> simp [hf, ht]
  | splitter a =>
    cases hf : (qt.focusWidget (.splitter a)).asTerm with
    | none => simp [hf]
    | some t => by_cases ht : t ∈ st.terminalList <;> simp [hf, ht]
  | other a =>
    cases hf : (qt.focusWidget (.other a)).asTerm with
    | none => simp [hf]
    | some t => by_cases ht : t ∈ st.terminalList <;> simp [hf, ht]

/-- C11: `getCurrentTerminal()` returns none exactly when there is no current tab
widget, or the focused widget under it is not a terminal session, or that
session is not in `terminalList`.  With at least one tab and split type
Horizontal or Vertical, if it returns none then `setupLayout` returns -1 and
hands back the state as it was: no split, `newTerm` not appended, tab sequence,
`tabIndexMap` and `widgetAtIndex` unchanged, no collaborator called.
Conversely, whenever `setupLayout` returns 0, `terminalList` afterwards is the
old list with `newTerm` appended once. -/
theorem setupLayout_no_focused_session (qt : QtFocus) (r : Run) (newTerm : TermId)
    (split : SplitType) (tabind : Int) (newSplit : SplitId) :
    (getCurrentTerminal qt r.win = none ↔
        (qt.currentWidget = .null ∨
          (qt.focusWidget qt.currentWidget).asTerm = none ∨
          ∃ t, (qt.focusWidget qt.currentWidget).asTerm = some t ∧ t ∉ r.win.terminalList)) ∧
    (0 < r.win.tabArea.length → (split = .TYPE_HORIZONTAL ∨ split = .TYPE_VERTICAL) →
        getCurrentTerminal qt r.win = none →
        setupLayout qt r newTerm split tabind newSplit = (-1, r)) ∧
    (∀ r2 : Run, setupLayout qt r newTerm split tabind newSplit = (0, r2) →
        r2.win.terminalList = r.win.terminalList ++ [newTerm]) := by
  refine ⟨getCurrentTerminal_eq_none_iff qt r.win, ?_, ?_⟩
  · intro hcount hsplit hnone
    have hne : ¬ r.win.tabArea.length = 0 := by omega
    rcases hsplit with hs | hs <;> subst hs <;> simp [setupLayout, hne, hnone]
  · intro r2 h
    unfold setupLayout at h
    simp only at h
    split at h
    · simp only [Prod.mk.injEq, true_and] at h
      rw [← h, terminalList_after_rebuild]
      simp [Run.emit, tabInsert]
    · split at h
      · simp at h
      · simp only [Prod.mk.injEq, true_and] at h
        rw [← h, terminalList_after_rebuild]
        simp [Run.emit, createSplitLayout]
    · split at h
      · simp at h
      · simp only [Prod.mk.injEq, true_and] at h
        rw [← h, terminalList_after_rebuild]
        simp [Run.emit, createSplitLayout]
    · simp at h

/-- Witness for C11: a vertical split requested on the window with one bare tab
while nothing has focus, and the same request while session 1 has focus. -/
theorem setupLayout_no_focused_session_witness :
    0 < oneTabWindow.tabArea.length ∧
      getCurrentTerminal noFocus oneTabWindow = none ∧
      setupLayout noFocus ⟨oneTabWindow, []⟩ 2 .TYPE_VERTICAL (-1) 100 =
        (-1, ⟨oneTabWindow, []⟩) ∧
      (setupLayout focusOnOne ⟨oneTabWindow, []⟩ 2 .TYPE_VERTICAL (-1) 100).1 = 0 ∧
      (setupLayout focusOnOne ⟨oneTabWindow, []⟩ 2 .TYPE_VERTICAL (-1) 100).2.win.terminalList =
        [1, 2] :=
  ⟨by decide, rfl,
    (setupLayout_no_focused_session noFocus ⟨oneTabWindow, []⟩ 2 .TYPE_VERTICAL (-1) 100).2.1
      (by decide) (Or.inr rfl) rfl,
    rfl,
    (setupLayout_no_focused_session focusOnOne ⟨oneTabWindow, []⟩ 2 .TYPE_VERTICAL (-1) 100).2.2
      (setupLayout focusOnOne ⟨oneTabWindow, []⟩ 2 .TYPE_VERTICAL (-1) 100).2 rfl⟩

end Qutty
